import Mathlib

/-!
Verification development for the jsonrpc-fsproxy repository.

The repository contains two near-duplicate variants of a tail-and-forward
engine:

* `pkg/jsonrpc/fsproxy.go` : type `FSProxy`, event-driven line source
  (fsnotify watcher), dispatcher spawning one goroutine per line.
* `pkg/jsonrpcfile` (file `part_000`) : type `Proxy`, polling line source
  (periodic stat of the input file), dispatcher invoking the unit of work
  inline.

Bytes are modelled as characters (the inputs of interest are ASCII, where
byte offsets and character offsets coincide).  Strings of the Go program
are modelled as `List Char`.  Goroutine side effects (logging, sends on the
shared error channel, writes to the output file) are reified as an explicit
`Effect` list.
-/

/-- Go errors: a base error message, or an error wrapped with context via
fmt.Errorf with the %w verb. -/
inductive GoError : Type
  | base (msg : String)
  | wrap (ctx : String) (e : GoError)
deriving DecidableEq, Repr

/-- Effects a unit of work or a watcher goroutine can perform, reified.
`sendError` is a send on the shared error channel `errorStream`;
`writeOutput` is a write of response bytes to the output file. -/
inductive Effect : Type
  | logInfo (msg : String)
  | logWarn (msg : String)
  | logError (msg : String)
  | sendError (e : GoError)
  | writeOutput (bytes : List Char)
deriving DecidableEq, Repr

/-! ## bufio.Scanner model

`bufio.NewScanner` with the default `ScanLines` split function: tokens are
maximal runs between newline characters; a trailing carriage return is
stripped from each token; the final token is returned even when it has no
trailing newline; no empty token is produced after a trailing newline. -/

/-- Strip one trailing carriage return, as the dropCR helper of
bufio.ScanLines does. -/
def dropCR (tok : List Char) : List Char :=
  if tok.getLast? = some '\r' then tok.dropLast else tok

/-- Accumulator-based splitter mirroring repeated bufio.Scanner.Scan calls.
`acc` holds the characters of the current token in reverse. -/
def scanAux : List Char → List Char → List (List Char)
  | [], acc => if acc.isEmpty then [] else [dropCR acc.reverse]
  | c :: rest, acc =>
      if c = '\n' then dropCR acc.reverse :: scanAux rest []
      else scanAux rest (c :: acc)

/-- The sequence of tokens produced by scanning `cs` from start to end with
bufio.Scanner under ScanLines. -/
def scanTokens (cs : List Char) : List (List Char) :=
  scanAux cs []

/-! ## FSProxy.processLine / Proxy.processLine

Both variants have identical bodies (fsproxy.go lines 186-216, part_000
lines 156-185):

* http.Post(rpcURL, "Content-Type: application/json", strings.NewReader(line))
* transport failure: log error, return;
* deferred response body close, logging a warning on failure;
* status code other than 200: log error, return;
* ioutil.ReadAll failure: log error, return;
* on success: log the response, then lock outputFileMutex and write the
  body bytes to the output file, logging an error if the write fails.

The environment of one call is captured by `PostResult` (how the network
behaved), a flag for whether the output write succeeds, and a flag for
whether the deferred body close succeeds. -/

/-- An HTTP response as seen by processLine: its status code and the result
of reading its body to the end. -/
structure HttpResponse : Type where
  statusCode : Nat
  bodyRead : Except GoError (List Char)
deriving Repr

/-- Outcome of http.Post: a transport-level error, or a response. -/
inductive PostResult : Type
  | postErr (e : GoError)
  | ok (resp : HttpResponse)
deriving Repr

/-- The HTTP request issued by processLine for one line, as built by
http.Post: the configured URL, the contentType argument (which http.Post
sets verbatim as the value of the Content-Type header), and the request
body. -/
structure HttpRequest : Type where
  url : String
  contentType : String
  body : List Char
deriving DecidableEq, Repr

/-- The request processLine issues for a line: POST to rpcURL, with the
literal contentType argument of the source, and the raw line as body. -/
def postRequest (rpcURL : String) (line : List Char) : HttpRequest :=
  { url := rpcURL
    contentType := "Content-Type: application/json"
    body := line }

/-- The effect trace of one processLine call, given the network outcome and
whether the output write and the body close succeed.  The deferred body
close runs after the rest of the function body, hence its effect comes
last whenever the post itself succeeded. -/
def processLine (net : PostResult) (writeOk : Bool) (closeOk : Bool) :
    List Effect :=
  match net with
  | .postErr _ => [.logError "Failed to send request"]
  | .ok resp =>
      let closeFx : List Effect :=
        if closeOk then [] else [.logWarn "Failed to Close response body"]
      if resp.statusCode ≠ 200 then
        [.logError "Response status code not OK"] ++ closeFx
      else
        match resp.bodyRead with
        | .error _ => [.logError "Failed to read response body"] ++ closeFx
        | .ok bodyBytes =>
            [.logInfo "Got response", .writeOutput bodyBytes] ++
              (if writeOk then [] else [.logError "Failed to write response"]) ++
              closeFx

/-! ## Output sink

processLine writes the whole response body in a single outputFile.Write
call while holding outputFileMutex.  The mutex serializes the write calls
of concurrent units of work, so every interleaving of N units is, at the
file, some order in which the N complete bodies are appended one after the
other.  `runSink` folds such an order of whole-body writes over the file
contents; the file was opened with O_APPEND (or freshly created), so a
write appends. -/

/-- One locked write call: append the full response bytes. -/
def writeResponse (file : List Char) (resp : List Char) : List Char :=
  file ++ resp

/-- The output file contents after the responses in `order` have been
written, in lock-acquisition order, starting from contents `init`. -/
def runSink (init : List Char) (order : List (List Char)) : List Char :=
  order.foldl writeResponse init

/-! ## FSProxy.Close

fsproxy.go lines 99-113: Close closes the input file, then the output
file, then the watcher, returning a wrapped error and stopping at the
first failure.  The handles are os.File values; per the os package
documentation, File.Close returns an error if it has already been
called. -/

/-- An os.File handle, reduced to whether it has been closed. -/
structure OSFile : Type where
  isClosed : Bool
deriving DecidableEq, Repr

/-- The error os.File.Close returns on a second call. -/
def errFileClosed : GoError := .base "file already closed"

/-- Modelled from the Go os package documentation: Close closes the file;
it returns an error if Close has already been called. -/
def osFileClose (f : OSFile) : OSFile × Option GoError :=
  if f.isClosed then (f, some errFileClosed)
  else ({ isClosed := true }, none)

/-- An fsnotify watcher handle, reduced to whether it has been closed. -/
structure WatcherHandle : Type where
  isClosed : Bool
deriving DecidableEq, Repr

/-- Closing the fsnotify watcher; releasing succeeds here, Close never
being reached twice matters only through the file handles. -/
def watcherCloseFn (_w : WatcherHandle) : WatcherHandle × Option GoError :=
  ({ isClosed := true }, none)

/-- The closable handles held by an FSProxy. -/
structure FSProxyHandles : Type where
  inputFile : OSFile
  outputFile : OSFile
  watcher : WatcherHandle
deriving DecidableEq, Repr

/-- The handle state of a freshly constructed FSProxy: NewFSProxy returns
with the input file, output file and watcher all open. -/
def newFSProxyHandles : FSProxyHandles :=
  { inputFile := { isClosed := false }
    outputFile := { isClosed := false }
    watcher := { isClosed := false } }

/-- FSProxy.Close: close input file, output file, watcher in order,
wrapping and returning the first failure and skipping the rest. -/
def fsproxyClose (s : FSProxyHandles) : FSProxyHandles × Option GoError :=
  match osFileClose s.inputFile with
  | (f, some e) => ({ s with inputFile := f }, some (.wrap "close input file" e))
  | (f, none) =>
      match osFileClose s.outputFile with
      | (g, some e) =>
          ({ s with inputFile := f, outputFile := g },
            some (.wrap "close output file" e))
      | (g, none) =>
          match watcherCloseFn s.watcher with
          | (w, some e) =>
              ({ inputFile := f, outputFile := g, watcher := w },
                some (.wrap "close watcher" e))
          | (w, none) =>
              ({ inputFile := f, outputFile := g, watcher := w }, none)

/-! ## FSProxy.watchInput (event-driven line source)

fsproxy.go lines 115-162.  The goroutine first seeks the input file handle
to end-of-file (skipping content already present), then loops over a
select: ctx.Done ends the loop; a watcher event with the Write bit set
scans the file from the current handle position with a fresh
bufio.Scanner, sending each token on lineStream; other events are
ignored; a value on watcher.Errors is forwarded to the shared error
channel and ends the loop.  The scanner.Err value is never inspected: a
scan that stops early (read error on the handle, or a line longer than the
64 KiB default token limit) just falls out of the scan loop and the
goroutine waits for the next event.

A write event is modelled by the whole file contents at scan time together
with an optional fault: `fault = some k` means Scan returned false after k
tokens because of such a mid-scan failure.  After a faulted scan the
handle sits after the bytes of the delivered tokens. -/

/-- Events the watcher select loop can receive. -/
inductive FsEvent : Type
  | write (content : List Char) (fault : Option Nat)
  | otherOp
  | watcherErr (e : GoError)
  | ctxDone
deriving Repr

/-- The characters a token consumed from the file, terminator included. -/
def consumedLen (toks : List (List Char)) : Nat :=
  (toks.map (fun t => t.length + 1)).sum

/-- Result of the watcher goroutine: the scans it performed (file position
scanned from, tokens delivered on lineStream) and its other effects. -/
structure WatchOut : Type where
  scans : List (Nat × List (List Char))
  effects : List Effect
deriving Repr

/-- The watcher select loop, from file handle position `pos`, over the
incoming events. -/
def watchLoop (pos : Nat) : List FsEvent → WatchOut
  | [] => { scans := [], effects := [] }
  | .write content none :: rest =>
      { scans := (pos, scanTokens (content.drop pos)) ::
          (watchLoop (pos + (content.drop pos).length) rest).scans
        effects := (watchLoop (pos + (content.drop pos).length) rest).effects }
  | .write content (some k) :: rest =>
      { scans := (pos, (scanTokens (content.drop pos)).take k) ::
          (watchLoop (pos + consumedLen ((scanTokens (content.drop pos)).take k)) rest).scans
        effects :=
          (watchLoop (pos + consumedLen ((scanTokens (content.drop pos)).take k)) rest).effects }
  | .otherOp :: rest => watchLoop pos rest
  | .watcherErr e :: _ => { scans := [], effects := [.sendError e] }
  | .ctxDone :: _ => { scans := [], effects := [] }

/-- FSProxy.watchInput: seek to end of the initial contents, then run the
select loop. -/
def fsproxyWatchInput (initial : List Char) (events : List FsEvent) : WatchOut :=
  watchLoop initial.length events

/-! ## Proxy.watchInput (polling line source)

part_000 lines 92-132.  The goroutine keeps a local variable `size`
(initially 0) and loops: stat the input path; if `size` equals the stat
size, wait for the timeout (or cancellation) and retry; otherwise, if
`size` is still 0, seek the input handle to the stat size (the comment
reads "Skip old lines"); set `size` to the stat size; scan the handle to
end-of-file with a fresh bufio.Scanner, sending each token.

The loop is modelled over the list of file contents observed by the
successive stat calls; stat succeeding and fault-free scans are assumed
(the claims about this variant involve neither). -/

/-- Local state of the polling loop: the `size` variable and the input
file handle position. -/
structure PollSt : Type where
  sizeVar : Nat
  pos : Nat
deriving DecidableEq, Repr

/-- Where the scan of one polling iteration starts: when the size variable
is still 0 the handle is first seeked to the stat size (the "Skip old
lines" seek of part_000 line 115), otherwise it stays where the previous
scan left it. -/
def pollSeekPos (st : PollSt) (c : List Char) : Nat :=
  if st.sizeVar = 0 then c.length else st.pos

/-- The polling loop over observed file contents, recording each scan as
(file position scanned from, tokens delivered). -/
def pollLoop (st : PollSt) : List (List Char) → List (Nat × List (List Char))
  | [] => []
  | c :: rest =>
      if st.sizeVar = c.length then pollLoop st rest
      else
        (pollSeekPos st c, scanTokens (c.drop (pollSeekPos st c))) ::
          pollLoop
            { sizeVar := c.length
              pos := pollSeekPos st c + (c.drop (pollSeekPos st c)).length } rest

/-- Proxy.watchInput from process start: `size` starts at 0 and the handle
position starts at 0. -/
def proxyWatchInput (snaps : List (List Char)) : List (Nat × List (List Char)) :=
  pollLoop { sizeVar := 0, pos := 0 } snaps

/-- The lines a watcher run delivered, in order. -/
def deliveredLines (scans : List (Nat × List (List Char))) : List (List Char) :=
  (scans.map Prod.snd).flatten

/-! ## FSProxy.Run lifecycle

fsproxy.go lines 80-97.  Run starts the watcher goroutine and the line
intake goroutine (each registered on the WaitGroup), then a helper
goroutine that waits on the WaitGroup and signals waitStream, and finally
blocks in a select over waitStream and errorStream: whichever arrives
first determines the returned value (nil, or the received error).

The interleavings of the goroutines are modelled by a labelled transition
relation on an abstract run state:

* `cancelReq` : the caller cancels the context;
* `watcherExit` : the watcher goroutine observes ctx.Done (or its event
  channel closing) and returns, running its deferred wg.Done and closing
  lineStream;
* `watcherFatal` : the watcher goroutine sends a fatal error on
  errorStream; the send on the unbuffered channel blocks the goroutine, so
  its wg.Done has not run yet;
* `dispatch` : the watcher sends the next pending line on lineStream and
  the intake goroutine receives it, does wg.Add(1) and spawns the unit of
  work (fsproxy.go lines 176-180) — the unit is registered with the
  WaitGroup before it starts;
* `dispatcherExit` : the intake goroutine observes ctx.Done or lineStream
  closed and returns, running its deferred wg.Done;
* `unitFinish` : one in-flight processLine unit returns, running its
  deferred wg.Done; processLine never consults the context, so this is the
  only transition that removes in-flight work;
* `errorReceive` : the Run select receives the pending fatal error and Run
  returns it;
* `drainDone` : the WaitGroup counter is zero (watcher done, intake done,
  no unit in flight), wg.Wait returns, the Run select receives from
  waitStream and Run returns nil.

Every transition requires that Run has not yet returned: a run reports at
most one terminal outcome. -/

/-- Abstract state of one Run invocation. -/
structure RunState : Type where
  cancelled : Bool
  watcherDone : Bool
  dispatcherDone : Bool
  pending : List (List Char)
  inFlight : Nat
  fatalSent : Option GoError
  result : Option (Option GoError)
deriving DecidableEq, Repr

/-- Transition labels of the run lifecycle. -/
inductive RunLabel : Type
  | cancelReq
  | watcherExit
  | watcherFatal (e : GoError)
  | dispatch (line : List Char)
  | dispatcherExit
  | unitFinish
  | errorReceive (e : GoError)
  | drainDone
deriving DecidableEq, Repr

/-- Labelled small-step relation of the run lifecycle. -/
inductive RunStep : RunState → RunLabel → RunState → Prop
  | cancelReq (s : RunState) :
      s.result = none → s.cancelled = false →
      RunStep s .cancelReq { s with cancelled := true }
  | watcherExit (s : RunState) :
      s.result = none → s.watcherDone = false → s.cancelled = true →
      s.fatalSent = none →
      RunStep s .watcherExit { s with watcherDone := true }
  | watcherFatal (s : RunState) (e : GoError) :
      s.result = none → s.watcherDone = false → s.fatalSent = none →
      RunStep s (.watcherFatal e) { s with fatalSent := some e }
  | dispatch (s : RunState) (line : List Char) (rest : List (List Char)) :
      s.result = none → s.watcherDone = false → s.dispatcherDone = false →
      s.fatalSent = none → s.pending = line :: rest →
      RunStep s (.dispatch line)
        { s with pending := rest, inFlight := s.inFlight + 1 }
  | dispatcherExit (s : RunState) :
      s.result = none → s.dispatcherDone = false →
      (s.cancelled = true ∨ s.watcherDone = true) →
      RunStep s .dispatcherExit { s with dispatcherDone := true }
  | unitFinish (s : RunState) (n : Nat) :
      s.result = none → s.inFlight = n + 1 →
      RunStep s .unitFinish { s with inFlight := n }
  | errorReceive (s : RunState) (e : GoError) :
      s.result = none → s.fatalSent = some e →
      RunStep s (.errorReceive e) { s with result := some (some e) }
  | drainDone (s : RunState) :
      s.result = none → s.watcherDone = true → s.dispatcherDone = true →
      s.inFlight = 0 →
      RunStep s .drainDone { s with result := some none }

/-- A finite execution: a chain of run steps with its label trace. -/
inductive RunExec : RunState → List RunLabel → RunState → Prop
  | nil (s : RunState) : RunExec s [] s
  | cons {s s₁ s₂ : RunState} {a : RunLabel} {tr : List RunLabel} :
      RunStep s a s₁ → RunExec s₁ tr s₂ → RunExec s (a :: tr) s₂

/-- The run state at the moment Run is invoked with M units already
launched is abstracted by its fields; the state right after Run starts its
goroutines has no unit in flight and nothing cancelled. -/
def runInit (lines : List (List Char)) : RunState :=
  { cancelled := false
    watcherDone := false
    dispatcherDone := false
    pending := lines
    inFlight := 0
    fatalSent := none
    result := none }

/-! ## Dispatcher intake traces

fsproxy.go lines 164-184 (FSProxy.processLines) and part_000 lines 134-154
(Proxy.processLines) differ in one token: FSProxy launches the unit with
`go func() { defer wg.Done(); w.processLine(line) }()`, while Proxy
invokes the same closure immediately, without `go`.  The sequential
observable order of intake events in the Proxy variant is therefore fixed:
the unit of one line starts and finishes before the next line is taken
from the channel. -/

/-- Observable dispatcher events for the sequential Proxy variant. -/
inductive DispatchEv : Type
  | intake (line : List Char)
  | unitStart (line : List Char)
  | unitDone (line : List Char)
deriving DecidableEq, Repr

/-- Proxy.processLines: for each received line, wg.Add(1) and immediate
(inline, not spawned) execution of processLine to completion, before the
select is reentered for the next line. -/
def proxyProcessLinesTrace (lines : List (List Char)) : List DispatchEv :=
  (lines.map (fun l => [DispatchEv.intake l, .unitStart l, .unitDone l])).flatten

/-! ## Helper functions for end-to-end statements -/

/-- The output-file writes contained in an effect trace. -/
def writesOf (fx : List Effect) : List (List Char) :=
  fx.filterMap (fun f =>
    match f with
    | .writeOutput b => some b
    | _ => none)

/-- An endpoint that echoes each request body with status 200 (the
scenario of the spec): the units of work for the given lines, run with
succeeding writes and closes, and the bodies they hand to the output
sink. -/
def echoRun (lines : List (List Char)) : List (List Char) :=
  (lines.map (fun l => writesOf (processLine (.ok ⟨200, .ok l⟩) true true))).flatten

/-! ## Theorems -/

/-- Claim C2: a unit of work that fails at any stage (transport failure,
non-200 status, body-read failure, output-write failure) only logs the
failure and returns: its effect trace never contains a send on the shared
error channel, each failure stage leaves exactly its log entry, and a
finishing unit changes neither the pending fatal error nor the outcome of
the run. -/
theorem c2_per_line_failures_only_logged :
    (∀ (net : PostResult) (writeOk closeOk : Bool) (e : GoError),
        Effect.sendError e ∉ processLine net writeOk closeOk) ∧
    (∀ (e : GoError) (writeOk closeOk : Bool),
        processLine (.postErr e) writeOk closeOk =
          [.logError "Failed to send request"]) ∧
    (∀ (resp : HttpResponse), resp.statusCode ≠ 200 →
        processLine (.ok resp) true true =
          [.logError "Response status code not OK"]) ∧
    (∀ (code : Nat) (e : GoError), code = 200 →
        processLine (.ok ⟨code, .error e⟩) true true =
          [.logError "Failed to read response body"]) ∧
    (∀ (body : List Char),
        processLine (.ok ⟨200, .ok body⟩) false true =
          [.logInfo "Got response", .writeOutput body,
            .logError "Failed to write response"]) ∧
    (∀ (s r : RunState), RunStep s .unitFinish r →
        r.fatalSent = s.fatalSent ∧ r.result = s.result) := by
  refine ⟨?_, ?_, ?_, ?_, ?_, ?_⟩
  · intro net writeOk closeOk e
    cases net with
    | postErr e2 => simp [processLine]
    | ok resp =>
        by_cases h : resp.statusCode = 200 <;>
          cases hb : resp.bodyRead <;>
            cases writeOk <;> cases closeOk <;>
              simp [processLine, h, hb]
  · intro e writeOk closeOk
    rfl
  · intro resp h
    simp [processLine, h]
  · intro code e h
    subst h
    simp [processLine]
  · intro body
    rfl
  · intro s r st
    cases st
    exact ⟨rfl, rfl⟩

/-- Witness for C2 at a concrete failing unit: a transport failure leaves
only the log entry and sends nothing on the error channel. -/
theorem c2_witness :
    Effect.sendError (GoError.base "boom") ∉
      processLine (.postErr (GoError.base "connection refused")) true true :=
  c2_per_line_failures_only_logged.1
    (.postErr (GoError.base "connection refused")) true true (GoError.base "boom")

/-- Claim C7 (code bug): the request for a dispatched line is a POST to
the configured URL whose body is the raw line and for which only status
200 leads to a write; but the content type declared via the http.Post
contentType argument is the literal string "Content-Type: application/json"
(the header name glued to the media type), not the JSON media type
"application/json". -/
theorem c7_post_request_content_type_misdeclared :
    (postRequest "http://localhost:8080/rpc" ("\x7b\"id\":1\x7d".toList)).url =
        "http://localhost:8080/rpc" ∧
    (postRequest "http://localhost:8080/rpc" ("\x7b\"id\":1\x7d".toList)).body =
        "\x7b\"id\":1\x7d".toList ∧
    (postRequest "http://localhost:8080/rpc" ("\x7b\"id\":1\x7d".toList)).contentType =
        "Content-Type: application/json" ∧
    (postRequest "http://localhost:8080/rpc" ("\x7b\"id\":1\x7d".toList)).contentType ≠
        "application/json" ∧
    Effect.writeOutput ("result".toList) ∈
        processLine (.ok ⟨200, .ok ("result".toList)⟩) true true ∧
    (∀ (body : List Char),
        Effect.writeOutput body ∉ processLine (.ok ⟨500, .ok ("result".toList)⟩) true true) := by
  refine ⟨rfl, rfl, rfl, by decide, by simp [processLine], ?_⟩
  intro body
  simp [processLine]

/-- Claim C6: under any order in which concurrent units acquire the output
lock, the output file is the initial contents followed by the complete
response bodies in that order: every response appears contiguously (no
byte-level splicing), and any earlier stage of the run is a prefix of any
later one (append only, never truncated or rewound). -/
theorem c6_output_sink_atomic_append :
    ∀ (init : List Char) (order : List (List Char)),
      runSink init order = init ++ order.flatten ∧
      (∀ resp, resp ∈ order →
          ∃ before after, runSink init order = before ++ resp ++ after) ∧
      (∀ pre suf, order = pre ++ suf →
          ∃ tail, runSink init order = runSink init pre ++ tail) := by
  have hflat : ∀ (init : List Char) (order : List (List Char)),
      runSink init order = init ++ order.flatten := by
    intro init order
    induction order generalizing init with
    | nil => simp [runSink]
    | cons r rest ih =>
        simp only [runSink, List.foldl_cons, List.flatten_cons] at *
        rw [ih (writeResponse init r)]
        simp [writeResponse]
  intro init order
  refine ⟨hflat init order, ?_, ?_⟩
  · intro resp hmem
    obtain ⟨l₁, l₂, rfl⟩ := List.append_of_mem hmem
    refine ⟨init ++ l₁.flatten, l₂.flatten, ?_⟩
    rw [hflat]
    simp
  · intro pre suf hsplit
    subst hsplit
    refine ⟨suf.flatten, ?_⟩
    rw [hflat, hflat]
    simp

/-- Witness for C6 at a concrete order of two responses. -/
theorem c6_witness :
    ∃ before after,
      runSink ("old".toList) ["ab".toList, "cd".toList] =
        before ++ "cd".toList ++ after :=
  (c6_output_sink_atomic_append ("old".toList) ["ab".toList, "cd".toList]).2.1
    ("cd".toList) (by decide)

/-- Claim C9 counterexample: at the handle state of a freshly constructed
FSProxy, the first Close succeeds, but a second Close does not return nil:
closing the already-closed input file fails and the wrapped error is
returned. -/
theorem c9_second_close_errors :
    (fsproxyClose newFSProxyHandles).2 = none ∧
    (fsproxyClose (fsproxyClose newFSProxyHandles).1).2 =
      some (.wrap "close input file" (.base "file already closed")) ∧
    (fsproxyClose (fsproxyClose newFSProxyHandles).1).2 ≠ none := by
  refine ⟨rfl, rfl, by decide⟩

/-- Claim C9 amended: after a first successful Close of a proxy whose
handles are all open, a second Close releases nothing further (the handle
states are unchanged) but returns the wrapped close input file error
rather than nil. -/
theorem c9_close_not_idempotent :
    ∀ (s : FSProxyHandles),
      s.inputFile.isClosed = false → s.outputFile.isClosed = false →
      (fsproxyClose s).2 = none ∧
      (fsproxyClose (fsproxyClose s).1).1 = (fsproxyClose s).1 ∧
      (fsproxyClose (fsproxyClose s).1).2 =
        some (.wrap "close input file" (.base "file already closed")) := by
  intro s h1 h2
  simp [fsproxyClose, osFileClose, watcherCloseFn, errFileClosed, h1, h2]

/-- Witness for C9 amended at the freshly constructed handle state. -/
theorem c9_close_not_idempotent_witness :
    (fsproxyClose newFSProxyHandles).2 = none ∧
    (fsproxyClose (fsproxyClose newFSProxyHandles).1).1 =
      (fsproxyClose newFSProxyHandles).1 ∧
    (fsproxyClose (fsproxyClose newFSProxyHandles).1).2 =
      some (.wrap "close input file" (.base "file already closed")) :=
  c9_close_not_idempotent newFSProxyHandles rfl rfl

/-- The watcher loop never scans from before its starting position: file
positions only advance. -/
theorem watchLoop_scan_pos_ge :
    ∀ (events : List FsEvent) (start p : Nat) (toks : List (List Char)),
      (p, toks) ∈ (watchLoop start events).scans → start ≤ p := by
  intro events
  induction events with
  | nil =>
      intro start p toks h
      simp [watchLoop] at h
  | cons ev rest ih =>
      intro start p toks h
      cases ev with
      | write content fault =>
          cases fault with
          | none =>
              simp only [watchLoop, List.mem_cons] at h
              rcases h with h | h
              · obtain ⟨h1, h2⟩ := Prod.mk.injEq .. ▸ h
                omega
              · exact le_trans (Nat.le_add_right _ _) (ih _ _ _ h)
          | some k =>
              simp only [watchLoop, List.mem_cons] at h
              rcases h with h | h
              · obtain ⟨h1, h2⟩ := Prod.mk.injEq .. ▸ h
                omega
              · exact le_trans (Nat.le_add_right _ _) (ih _ _ _ h)
      | otherOp =>
          exact ih _ _ _ (by simpa [watchLoop] using h)
      | watcherErr e =>
          simp [watchLoop] at h
      | ctxDone =>
          simp [watchLoop] at h

/-- The polling loop never scans from before position L, provided L is
positive, every observed snapshot is at least L long, and the loop state
has either not yet seeked (sizeVar still 0) or sits at or past L. -/
theorem pollLoop_scan_pos_ge (L : Nat) (_hL : 0 < L) :
    ∀ (snaps : List (List Char)) (st : PollSt),
      (∀ c ∈ snaps, L ≤ c.length) →
      (st.sizeVar = 0 ∨ L ≤ st.pos) →
      ∀ (p : Nat) (toks : List (List Char)),
        (p, toks) ∈ pollLoop st snaps → L ≤ p := by
  intro snaps
  induction snaps with
  | nil =>
      intro st _ _ p toks h
      simp [pollLoop] at h
  | cons c rest ih =>
      intro st hlen hinv p toks h
      have hc : L ≤ c.length := hlen c (List.mem_cons_self c rest)
      have hseek : L ≤ pollSeekPos st c := by
        rcases hinv with h0 | hpos
        · simp [pollSeekPos, h0, hc]
        · by_cases h0 : st.sizeVar = 0
          · simp [pollSeekPos, h0, hc]
          · simpa [pollSeekPos, h0] using hpos
      by_cases hsz : st.sizeVar = c.length
      · rw [pollLoop, if_pos hsz] at h
        exact ih st (fun d hd => hlen d (List.mem_cons_of_mem c hd)) hinv p toks h
      · rw [pollLoop, if_neg hsz] at h
        rcases List.mem_cons.mp h with he | he
        · obtain ⟨h1, h2⟩ := Prod.mk.injEq .. ▸ he
          omega
        · refine ih _ (fun d hd => hlen d (List.mem_cons_of_mem c hd)) ?_ p toks he
          exact Or.inr (le_trans hseek (Nat.le_add_right _ _))

/-- Claim C4: on first activation both line-source strategies position the
read cursor at end-of-file before emitting anything, so with a non-empty
input file at engine start every scan begins at or past the length of the
startup contents: no line already present at startup is delivered. -/
theorem c4_startup_lines_never_delivered :
    (∀ (initial : List Char) (events : List FsEvent) (p : Nat)
        (toks : List (List Char)),
        (p, toks) ∈ (fsproxyWatchInput initial events).scans →
        initial.length ≤ p) ∧
    (∀ (initial : List Char) (snaps : List (List Char)) (p : Nat)
        (toks : List (List Char)),
        initial ≠ [] →
        (∀ c ∈ snaps, initial.length ≤ c.length) →
        (p, toks) ∈ proxyWatchInput snaps →
        initial.length ≤ p) := by
  constructor
  · intro initial events p toks h
    exact watchLoop_scan_pos_ge events initial.length p toks h
  · intro initial snaps p toks hne hlen h
    have hL : 0 < initial.length := List.length_pos.mpr hne
    exact pollLoop_scan_pos_ge initial.length hL snaps
      { sizeVar := 0, pos := 0 } hlen (Or.inl rfl) p toks h

/-- Witness for C4: a concrete polling run over a file that held one full
line at startup scans only from position 6, past the 3 startup
characters. -/
theorem c4_witness :
    ("ab\n".toList).length ≤ 6 :=
  c4_startup_lines_never_delivered.2 ("ab\n".toList) [("ab\ncd\n".toList)] 6 []
    (by decide) (by decide) (by decide)

/-- Claim C5 (code bug in the polling variant): with an input file empty at
engine start and an echo endpoint, appending the first line delivers
nothing in the Proxy polling variant — the size variable is still 0 at the
first observed growth, so the handle is seeked to end-of-file past the
fresh line — and the output file stays empty instead of ending with the
echoed line; the event-driven FSProxy variant does deliver the line, and
its echoed body is exactly the output file contents.  A later append of
two more lines in one write is delivered by the polling variant. -/
theorem c5_empty_start_first_append_dropped :
    deliveredLines (proxyWatchInput [[], "\x7b\"id\":1\x7d\n".toList]) = [] ∧
    runSink []
        (echoRun (deliveredLines (proxyWatchInput [[], "\x7b\"id\":1\x7d\n".toList]))) =
      [] ∧
    runSink []
        (echoRun (deliveredLines (proxyWatchInput [[], "\x7b\"id\":1\x7d\n".toList]))) ≠
      "\x7b\"id\":1\x7d".toList ∧
    deliveredLines (proxyWatchInput
        [[], "\x7b\"id\":1\x7d\n".toList,
          ("\x7b\"id\":1\x7d\n\x7b\"id\":2\x7d\n\x7b\"id\":3\x7d\n").toList]) =
      ["\x7b\"id\":2\x7d".toList, "\x7b\"id\":3\x7d".toList] ∧
    deliveredLines
        (fsproxyWatchInput [] [.write ("\x7b\"id\":1\x7d\n".toList) none]).scans =
      ["\x7b\"id\":1\x7d".toList] ∧
    runSink []
        (echoRun (deliveredLines
          (fsproxyWatchInput [] [.write ("\x7b\"id\":1\x7d\n".toList) none]).scans)) =
      "\x7b\"id\":1\x7d".toList := by
  refine ⟨by decide, by decide, by decide, by decide, by decide, by decide⟩

/-- Claim C10: a scan that fails after k tokens (read error on the input
handle, or a line past the default 64 KiB token limit, both leaving
scanner.Err unchecked) emits exactly the first k tokens — the failing line
and everything after it in that scan are not emitted — adds no effect, and
the watcher loop continues with the remaining events exactly as if no
error had occurred; a send on the shared error channel can only ever come
from a watcher Errors event, never from a scan failure. -/
theorem c10_scanner_failure_is_silent :
    (∀ (pos : Nat) (content : List Char) (k : Nat) (rest : List FsEvent),
        (watchLoop pos (.write content (some k) :: rest)).scans =
          (pos, (scanTokens (content.drop pos)).take k) ::
            (watchLoop
              (pos + consumedLen ((scanTokens (content.drop pos)).take k))
              rest).scans ∧
        (watchLoop pos (.write content (some k) :: rest)).effects =
          (watchLoop
            (pos + consumedLen ((scanTokens (content.drop pos)).take k))
            rest).effects) ∧
    (∀ (pos : Nat) (events : List FsEvent) (e : GoError),
        Effect.sendError e ∈ (watchLoop pos events).effects →
        ∃ e2, FsEvent.watcherErr e2 ∈ events) := by
  constructor
  · intro pos content k rest
    exact ⟨rfl, rfl⟩
  · intro pos events e h
    induction events generalizing pos with
    | nil => simp [watchLoop] at h
    | cons ev rest ih =>
        cases ev with
        | write content fault =>
            cases fault with
            | none =>
                obtain ⟨e2, he2⟩ := ih _ (by simpa [watchLoop] using h)
                exact ⟨e2, List.mem_cons_of_mem _ he2⟩
            | some k =>
                obtain ⟨e2, he2⟩ := ih _ (by simpa [watchLoop] using h)
                exact ⟨e2, List.mem_cons_of_mem _ he2⟩
        | otherOp =>
            obtain ⟨e2, he2⟩ := ih _ (by simpa [watchLoop] using h)
            exact ⟨e2, List.mem_cons_of_mem _ he2⟩
        | watcherErr e3 =>
            exact ⟨e3, List.mem_cons_self _ _⟩
        | ctxDone =>
            simp [watchLoop] at h


/-- Witness for C10: in a concrete run whose only error effect comes from
the watcher Errors channel, the theorem locates that event. -/
theorem c10_witness :
    ∃ e2, FsEvent.watcherErr e2 ∈
      [FsEvent.write ("x\n".toList) (some 0), FsEvent.watcherErr (GoError.base "w")] :=
  c10_scanner_failure_is_silent.2 0
    [FsEvent.write ("x\n".toList) (some 0), FsEvent.watcherErr (GoError.base "w")]
    (GoError.base "w") (by decide)

/-- Every run step happens while Run is still selecting: no transition
leaves a state whose result is already reported. -/
theorem runStep_result_none {s : RunState} {a : RunLabel} {r : RunState} :
    RunStep s a r → s.result = none := by
  intro st
  cases st <;> assumption

/-- Once Run has returned, the lifecycle is absorbed: no further step, so
an execution from a terminated state is empty. -/
theorem runExec_absorbing {s : RunState} {tr : List RunLabel} {r : RunState}
    {o : Option GoError} :
    RunExec s tr r → s.result = some o → r = s := by
  intro ex
  cases ex with
  | nil => intro _; rfl
  | cons st _ =>
      intro hres
      rw [runStep_result_none st] at hres
      cases hres

/-- Claim C1: exactly one terminal outcome per run, decided by a first-wins
race.  Every step requires that no outcome has been reported yet; the
drain event yields nil and is only enabled once the wait barrier is down
to zero; the error event yields exactly the received fatal error; and from
one common state both outcomes are reachable, so the two completion events
are raced, not waited on in sequence. -/
theorem c1_single_outcome_first_wins :
    (∀ (s : RunState) (a : RunLabel) (r : RunState),
        RunStep s a r → s.result = none) ∧
    (∀ (s r : RunState), RunStep s .drainDone r →
        r.result = some none ∧ s.watcherDone = true ∧
          s.dispatcherDone = true ∧ s.inFlight = 0) ∧
    (∀ (s r : RunState) (e : GoError), RunStep s (.errorReceive e) r →
        r.result = some (some e) ∧ s.fatalSent = some e) ∧
    (∃ (s r₁ r₂ : RunState) (tr₁ tr₂ : List RunLabel),
        RunExec s tr₁ r₁ ∧ r₁.result = some none ∧
        RunExec s tr₂ r₂ ∧ r₂.result = some (some (GoError.base "watcher errors"))) := by
  refine ⟨?_, ?_, ?_, ?_⟩
  · intro s a r st
    exact runStep_result_none st
  · intro s r st
    cases st with
    | drainDone h1 h2 h3 h4 => exact ⟨rfl, h2, h3, h4⟩
  · intro s r e st
    cases st with
    | errorReceive _ h1 h2 => exact ⟨rfl, h2⟩
  · exact ⟨runInit [], _, _, _, _,
      RunExec.cons (RunStep.cancelReq _ rfl rfl)
        (RunExec.cons (RunStep.watcherExit _ rfl rfl rfl rfl)
          (RunExec.cons (RunStep.dispatcherExit _ rfl rfl (Or.inl rfl))
            (RunExec.cons (RunStep.drainDone _ rfl rfl rfl rfl)
              (RunExec.nil _)))), rfl,
      RunExec.cons (RunStep.watcherFatal _ (GoError.base "watcher errors") rfl rfl rfl)
        (RunExec.cons (RunStep.errorReceive _ (GoError.base "watcher errors") rfl rfl)
          (RunExec.nil _)), rfl⟩

/-- Witness for C1 at a concrete drain step: the step happens before any
outcome is reported. -/
theorem c1_witness :
    ({ cancelled := true, watcherDone := true, dispatcherDone := true,
       pending := [], inFlight := 0, fatalSent := none,
       result := none } : RunState).result = none :=
  c1_single_outcome_first_wins.1 _ .drainDone _
    (RunStep.drainDone _ rfl rfl rfl rfl)

/-- Claim C3: in a run where cancellation has been requested, no outcome
has been reported yet, and no fatal error is ever sent (no watcherFatal
step in the trace), the run can only terminate through the drain event:
whenever it reports an outcome, that outcome is nil and the in-flight
count has reached zero — every launched unit has completed.  Moreover the
only transition that removes in-flight work is a unit finishing on its
own: cancellation never aborts a unit. -/
theorem c3_cancelled_run_drains :
    (∀ (s : RunState) (tr : List RunLabel) (r : RunState) (o : Option GoError),
        RunExec s tr r →
        s.cancelled = true → s.fatalSent = none → s.result = none →
        (∀ e, RunLabel.watcherFatal e ∉ tr) →
        r.result = some o →
        o = none ∧ r.inFlight = 0) ∧
    (∀ (s : RunState) (a : RunLabel) (r : RunState),
        RunStep s a r → r.inFlight < s.inFlight → a = .unitFinish) := by
  constructor
  · intro s tr r o ex
    induction ex with
    | nil =>
        intro _ _ hr _ hro
        rw [hr] at hro
        cases hro
    | cons st rest ih =>
        intro hc hf hr hnf hro
        cases st with
        | cancelReq h1 h2 =>
            exact ih rfl hf hr
              (fun e hm => hnf e (List.mem_cons_of_mem _ hm)) hro
        | watcherExit h1 h2 h3 h4 =>
            exact ih hc hf hr
              (fun e hm => hnf e (List.mem_cons_of_mem _ hm)) hro
        | watcherFatal e h1 h2 h3 =>
            exact ((hnf e (List.mem_cons_self _ _)).elim)
        | dispatch line rest2 h1 h2 h3 h4 h5 =>
            exact ih hc hf hr
              (fun e hm => hnf e (List.mem_cons_of_mem _ hm)) hro
        | dispatcherExit h1 h2 h3 =>
            exact ih hc hf hr
              (fun e hm => hnf e (List.mem_cons_of_mem _ hm)) hro
        | unitFinish n h1 h2 =>
            exact ih hc hf hr
              (fun e hm => hnf e (List.mem_cons_of_mem _ hm)) hro
        | errorReceive e h1 h2 =>
            rw [hf] at h2
            cases h2
        | drainDone h1 h2 h3 h4 =>
            have hr2 := runExec_absorbing rest rfl
            subst hr2
            exact ⟨(Option.some.inj hro).symm, h4⟩
  · intro s a r st hlt
    cases st with
    | cancelReq h1 h2 => exact absurd hlt (lt_irrefl _)
    | watcherExit h1 h2 h3 h4 => exact absurd hlt (lt_irrefl _)
    | watcherFatal e h1 h2 h3 => exact absurd hlt (lt_irrefl _)
    | dispatch line rest2 h1 h2 h3 h4 h5 =>
        exact absurd hlt (by simp)
    | dispatcherExit h1 h2 h3 => exact absurd hlt (lt_irrefl _)
    | unitFinish n h1 h2 => rfl
    | errorReceive e h1 h2 => exact absurd hlt (lt_irrefl _)
    | drainDone h1 h2 h3 h4 => exact absurd hlt (lt_irrefl _)

/-- Witness for C3: a concrete cancelled run with two units in flight
drains both and reports nil with nothing left in flight. -/
theorem c3_witness :
    (none : Option GoError) = none ∧
    ({ cancelled := true, watcherDone := true, dispatcherDone := true,
       pending := [], inFlight := 0, fatalSent := none,
       result := some none } : RunState).inFlight = 0 :=
  c3_cancelled_run_drains.1
    { cancelled := true, watcherDone := false, dispatcherDone := false,
      pending := [], inFlight := 2, fatalSent := none, result := none }
    _ _ none
    (RunExec.cons (RunStep.watcherExit _ rfl rfl rfl rfl)
      (RunExec.cons (RunStep.dispatcherExit _ rfl rfl (Or.inl rfl))
        (RunExec.cons (RunStep.unitFinish _ 1 rfl rfl)
          (RunExec.cons (RunStep.unitFinish _ 0 rfl rfl)
            (RunExec.cons (RunStep.drainDone _ rfl rfl rfl rfl)
              (RunExec.nil _))))))
    rfl rfl rfl (by intro e h; simp at h) rfl

/-- Claim C8 (code bug in the Proxy variant): Proxy.processLines invokes
the unit of work inline — the closure is called without the go keyword —
so its observable event order for two delivered lines has the unit of the
first line finishing before the second line is taken from the channel;
the FSProxy lifecycle, which spawns the unit with go after wg.Add, admits
an execution in which both lines are dispatched (each registered with the
wait barrier as it starts) before either unit finishes, and the run still
drains to nil. -/
theorem c8_proxy_dispatch_blocks_intake :
    proxyProcessLinesTrace [['a'], ['b']] =
      [.intake ['a'], .unitStart ['a'], .unitDone ['a'],
        .intake ['b'], .unitStart ['b'], .unitDone ['b']] ∧
    (∃ r : RunState,
        RunExec (runInit [['a'], ['b']])
          [.dispatch ['a'], .dispatch ['b'], .unitFinish, .unitFinish,
            .cancelReq, .watcherExit, .dispatcherExit, .drainDone] r ∧
        r.result = some none ∧ r.inFlight = 0) := by
  refine ⟨rfl, ?_⟩
  exact ⟨_,
    RunExec.cons (RunStep.dispatch _ ['a'] [['b']] rfl rfl rfl rfl rfl)
      (RunExec.cons (RunStep.dispatch _ ['b'] [] rfl rfl rfl rfl rfl)
        (RunExec.cons (RunStep.unitFinish _ 1 rfl rfl)
          (RunExec.cons (RunStep.unitFinish _ 0 rfl rfl)
            (RunExec.cons (RunStep.cancelReq _ rfl rfl)
              (RunExec.cons (RunStep.watcherExit _ rfl rfl rfl rfl)
                (RunExec.cons (RunStep.dispatcherExit _ rfl rfl (Or.inl rfl))
                  (RunExec.cons (RunStep.drainDone _ rfl rfl rfl rfl)
                    (RunExec.nil _)))))))),
    rfl, rfl⟩
